import Mathlib

/-!
# rdns-server — resolver and key/value store verification

A shallow embedding of the rdns-server core: the CoreDNS `ETCD` resolver
(`src/unnamed/part_000`, package `rdns`), the typed record store
(`src/database/keyvalue/kvstore.go`), and its two reference backends
(`src/database/keyvalue/filesystem/file.go`, `src/database/keyvalue/k8s/k8s.go`).

Go strings are modelled by `String`, Go slices by `List`, Go `int`/`int64` by
`Int` (no overflow at the sizes involved), Go `int8`/`uint32` conversions by
explicit wrapping, and fallible Go calls by `Except`/`Option`.  Store state is
passed explicitly.  The vendored `coredns/plugin/rdns/msg` path codec and the
`model` record structs are not under `src/`; they are modelled from the spec
(marked `Modelled from the spec:` below).
-/

namespace Rdns

/-! ## String utilities (Go `strings` / `path` behavior, over `String.data`) -/

def splitCharL (c : Char) : List Char → List (List Char)
  | [] => [[]]
  | x :: xs =>
    match splitCharL c xs with
    | [] => [[]]
    | h :: t => if x = c then [] :: h :: t else (x :: h) :: t

/-- Go `strings.Split(s, sep)` for the single-character separators used here. -/
def splitChar (c : Char) (s : String) : List String :=
  (splitCharL c s.data).map String.mk

/-- Go `strings.HasPrefix(s, pre)`. -/
def startsWith (s pre : String) : Bool :=
  pre.data.isPrefixOf s.data

/-- Go `strings.HasSuffix(s, suf)`. -/
def endsWith (s suf : String) : Bool :=
  suf.data.isSuffixOf s.data

/-- Go `strings.TrimSuffix(s, suf)`. -/
def trimSuffix (s suf : String) : String :=
  if endsWith s suf then String.mk (s.data.take (s.data.length - suf.data.length)) else s

/-- Go `strings.Join(parts, sep)`. -/
def joinSep (sep : String) : List String → String
  | [] => ""
  | [x] => x
  | x :: xs => x ++ sep ++ joinSep sep xs

/-- Decimal digits of a natural number (`fuel`-driven so the kernel can reduce it;
called with `fuel = n`, which bounds the number of divisions by 10). -/
def natToStrGo : Nat → Nat → List Char
  | 0, _ => []
  | fuel + 1, n => if n = 0 then [] else natToStrGo fuel (n / 10) ++ [Char.ofNat (48 + n % 10)]

/-- Go `strconv`-style decimal rendering of a natural number. -/
def natToStr (n : Nat) : String :=
  if n = 0 then "0" else String.mk (natToStrGo n n)

/-- Go decimal rendering of an integer. -/
def intToStr (n : Int) : String :=
  if n < 0 then "-" ++ natToStr (-n).toNat else natToStr n.toNat

/-- Two's-complement wrap of an integer into Go's `int8` range `[-128, 127]`,
modelling Go `int8` conversions and arithmetic overflow. -/
def int8Wrap (n : Int) : Int :=
  (n + 128) % 256 - 128

/-! ## Flat JSON values

`encoding/json` output for every record type in this repository is a flat
object of string, integer and boolean fields with no whitespace.  `parseFlatObj`
is a strict parser for exactly that shape: it fails on malformed input and on
trailing data after the closing brace, as Go's `json.Unmarshal` does. -/

inductive JVal where
  | jstr (s : String)
  | jnum (n : Int)
  | jbool (b : Bool)
  deriving DecidableEq, Repr

/-- Parse a JSON string body after its opening quote, up to the closing quote.
The payloads in this development contain no escape sequences; a backslash is
kept literally. -/
def parseJStr : List Char → Option (String × List Char)
  | [] => none
  | c :: cs =>
    if c = '"' then some ("", cs)
    else
      match parseJStr cs with
      | some (s, rest) => some (String.mk (c :: s.data), rest)
      | none => none

def parseDigits : List Char → (List Char × List Char)
  | [] => ([], [])
  | c :: cs =>
    if c.isDigit then
      let p := parseDigits cs
      (c :: p.1, p.2)
    else ([], c :: cs)

def digitsToNat (ds : List Char) : Nat :=
  ds.foldl (fun a c => a * 10 + (c.toNat - 48)) 0

def parseJNum : List Char → Option (Int × List Char)
  | [] => none
  | c :: cs =>
    if c = '-' then
      match parseDigits cs with
      | ([], _) => none
      | (ds, rest) => some (-(digitsToNat ds : Int), rest)
    else
      match parseDigits (c :: cs) with
      | ([], _) => none
      | (ds, rest) => some ((digitsToNat ds : Int), rest)

def parseJVal : List Char → Option (JVal × List Char)
  | [] => none
  | c :: cs =>
    if c = '"' then
      match parseJStr cs with
      | some (s, rest) => some (.jstr s, rest)
      | none => none
    else if c = 't' then
      match cs with
      | 'r' :: 'u' :: 'e' :: rest => some (.jbool true, rest)
      | _ => none
    else if c = 'f' then
      match cs with
      | 'a' :: 'l' :: 's' :: 'e' :: rest => some (.jbool false, rest)
      | _ => none
    else
      match parseJNum (c :: cs) with
      | some (n, rest) => some (.jnum n, rest)
      | none => none

def parsePair (cs : List Char) : Option ((String × JVal) × List Char) :=
  match cs with
  | '"' :: cs1 =>
    match parseJStr cs1 with
    | some (k, ':' :: cs2) =>
      match parseJVal cs2 with
      | some (v, rest) => some ((k, v), rest)
      | none => none
    | _ => none
  | _ => none

def parsePairs : Nat → List Char → Option (List (String × JVal) × List Char)
  | 0, _ => none
  | fuel + 1, cs =>
    match parsePair cs with
    | none => none
    | some (kv, rest) =>
      match rest with
      | ',' :: rest1 =>
        match parsePairs fuel rest1 with
        | some (kvs, rest2) => some (kv :: kvs, rest2)
        | none => none
      | '}' :: rest1 => some ([kv], rest1)
      | _ => none

/-- Strict parse of a whole flat JSON object; `none` on any malformation,
including bytes left over after the closing brace. -/
def parseFlatObj (s : String) : Option (List (String × JVal)) :=
  match s.data with
  | '{' :: '}' :: rest => if rest = [] then some [] else none
  | '{' :: cs =>
    match parsePairs cs.length cs with
    | some (kvs, []) => some kvs
    | _ => none
  | _ => none

def renderJVal : JVal → String
  | .jstr s => "\"" ++ s ++ "\""
  | .jnum n => intToStr n
  | .jbool b => if b then "true" else "false"

/-- Render a flat object the way `encoding/json` marshals the record structs:
no whitespace, fields in struct order. -/
def renderFlatObj (kvs : List (String × JVal)) : String :=
  "\x7b" ++ joinSep "," (kvs.map (fun kv => "\"" ++ kv.1 ++ "\":" ++ renderJVal kv.2)) ++ "\x7d"

/-! ## Resolver data model (package `rdns`, src/unnamed/part_000) -/

/-- DNS wire query-type codes (`dns.TypeA`, `dns.TypeTXT` from miekg/dns). -/
def typeA : Nat := 1

def typeTXT : Nat := 16

/-- Modelled from the spec: `msg.Service` (§3), the uniform value decoded from a
stored KV: `{host, text, ttl, priority, mail, key}`.  The vendored
`coredns/plugin/rdns/msg` package is not under src/. -/
structure Service where
  host : String := ""
  text : String := ""
  ttl : Nat := 0
  priority : Nat := 0
  mail : Bool := false
  key : String := ""
  deriving DecidableEq, Repr

/-- An etcd `mvccpb.KeyValue` as the resolver consumes it: key, raw value bytes,
and the lease field, read by `ETCD.TTL` as `uint32(kv.Lease)` — per spec §4.4.7
the remaining seconds of the key's lease (0 when none). -/
structure KV where
  key : String
  value : String
  lease : Nat := 0
  deriving DecidableEq, Repr

/-- The errors `ETCD.Records` can surface: the `errKeyNotFound` sentinel
(src/unnamed/part_000:29) or a decode failure from `loopNodes`. -/
inductive RErr where
  | keyNotFound
  | decode (msg : String)
  deriving DecidableEq, Repr

/-- `ETCD.IsNameError` (src/unnamed/part_000:65): true exactly on the
`errKeyNotFound` sentinel. -/
def isNameError : RErr → Bool
  | .keyNotFound => true
  | .decode _ => false

/-- Go `json.Unmarshal` of a stored value into a fresh `msg.Service`: merge the
parsed fields into `s0`, erroring when a known field has the wrong JSON kind
(as Go does) and ignoring unknown fields. -/
def serviceSetField (s : Service) : String × JVal → Option Service
  | ("host", .jstr v) => some { s with host := v }
  | ("host", _) => none
  | ("text", .jstr v) => some { s with text := v }
  | ("text", _) => none
  | ("ttl", .jnum n) => if 0 ≤ n ∧ n < 2 ^ 32 then some { s with ttl := n.toNat } else none
  | ("ttl", _) => none
  | ("priority", .jnum n) => if 0 ≤ n then some { s with priority := n.toNat } else none
  | ("priority", _) => none
  | ("mail", .jbool b) => some { s with mail := b }
  | ("mail", _) => none
  | _ => some s

def foldFields {α : Type} (setF : α → String × JVal → Option α) : α → List (String × JVal) → Option α
  | a, [] => some a
  | a, f :: fs =>
    match setF a f with
    | some a2 => foldFields setF a2 fs
    | none => none

def unmarshalService (s : String) : Option Service :=
  (parseFlatObj s).bind (foldFields serviceSetField {})

/-! ## Resolver operations -/

/-- `dns.SplitDomainName`: the labels of a domain name; the terminal dot is
stripped, `""` and `"."` have no labels. -/
def splitDomainName (name : String) : List String :=
  if name = "" ∨ name = "." then []
  else if endsWith name "." then splitChar '.' (trimSuffix name ".")
  else splitChar '.' name

/-- Modelled from the spec: `msg.Path` (§4.1 path codec; the
`coredns/plugin/rdns/msg` package is not under src/): reverse-label encoding,
`a.b.c` with root `p` ↦ `/p/c/b/a`. -/
def msgPath (name pfx : String) : String :=
  match (splitDomainName name).reverse with
  | [] => "/" ++ pfx
  | l => "/" ++ pfx ++ "/" ++ joinSep "/" l

/-- Labels up to the first `*`/`any`, and whether one was found. -/
def takeUntilStar : List String → List String × Bool
  | [] => ([], false)
  | x :: xs =>
    if x = "*" ∨ x = "any" then ([], true)
    else
      let p := takeUntilStar xs
      (x :: p.1, p.2)

/-- Modelled from the spec: `msg.PathWithWildcard` (§4.1): as `msgPath`, but a
name containing the literal label `*` (or `any`) yields the path up to but
excluding that label, plus `star = true`. -/
def pathWithWildcard (name pfx : String) : String × Bool :=
  let p := takeUntilStar (splitDomainName name).reverse
  match p.1 with
  | [] => ("/" ++ pfx, p.2)
  | l => ("/" ++ pfx ++ "/" ++ joinSep "/" l, p.2)

/-- The etcd key space visible to the resolver, as (key, value, lease) triples. -/
abbrev EtcdStore := List KV

/-- An etcd range request with the `WithPrefix` option. -/
def etcdPrefixGet (st : EtcdStore) (p : String) : List KV :=
  st.filter (fun kv => startsWith kv.key p)

/-- An etcd point get. -/
def etcdExactGet (st : EtcdStore) (p : String) : List KV :=
  st.filter (fun kv => kv.key = p)

/-- `ETCD.get` (src/unnamed/part_000:106): recursive fetch appends `/` and does a
prefix scan, falling back to an exact get on the trimmed path; zero results are
the `errKeyNotFound` sentinel. -/
def get (st : EtcdStore) (path : String) (recursive : Bool) : Except RErr (List KV) :=
  if recursive then
    let p := if endsWith path "/" then path else path ++ "/"
    let r := etcdPrefixGet st p
    if r.length = 0 then
      let r2 := etcdExactGet st (trimSuffix p "/")
      if r2.length = 0 then .error .keyNotFound else .ok r2
    else .ok r
  else
    let r := etcdExactGet st path
    if r.length = 0 then .error .keyNotFound else .ok r

/-- `ETCD.TTL` (src/unnamed/part_000:184): both zero → default 300; one zero →
the other; both set → the smaller.  `etcdTTL` is already `uint32(kv.Lease)`. -/
def ttlOf (etcdTTL servTTL : Nat) : Nat :=
  if etcdTTL = 0 ∧ servTTL = 0 then 300
  else if etcdTTL = 0 then servTTL
  else if servTTL = 0 then etcdTTL
  else if etcdTTL < servTTL then etcdTTL
  else servTTL

/-- Default priority assigned when a decoded Service has none
(src/unnamed/part_000:24). -/
def defaultPriority : Nat := 10

/-- `shouldInclude` (src/unnamed/part_000:205): TXT queries need `text`,
everything else needs `host`. -/
def shouldInclude (serv : Service) (qType : Nat) : Bool :=
  if qType = typeTXT then serv.text ≠ "" else serv.host ≠ ""

/-- The anchored pattern `^\d{1,3}_\d{1,3}_\d{1,3}_\d{1,3}$` from
`ETCD.filterKvs`, as a decidable predicate: exactly four underscore-separated
runs of one to three decimal digits. -/
def ipLabelPart (l : List Char) : Bool :=
  decide (1 ≤ l.length) && decide (l.length ≤ 3) && l.all Char.isDigit

def isIPLabel (s : String) : Bool :=
  match splitCharL '_' s.data with
  | [a, b, c, d] => ipLabelPart a && ipLabelPart b && ipLabelPart c && ipLabelPart d
  | _ => false

/-- `ETCD.filterKvs` (src/unnamed/part_000:213).  `wb` is the `WildcardBound`
field (a Go `int8`); the comparison `wb == int8(len(segments)) - 3` keeps Go's
`int8` conversion and subtraction wrap-around via `int8Wrap`.  Lengths are
subtracted as Go `int`s, hence over `Int`. -/
def filterKvs (wb : Int) (kvs : List KV) (segments : List String) (qType : Nat) : List KV :=
  if qType = typeA then
    kvs.filter (fun v =>
      let ss := splitChar '/' v.key
      let s := (segments.getLast?).getD ""
      let m := isIPLabel s
      if s ≠ "*" ∧ m = true ∧ wb = int8Wrap (int8Wrap (segments.length : Int) - 3) then false
      else
        decide ((s ≠ "*" ∧ (ss.length : Int) - (segments.length : Int) = 1) ∨
          (s = "*" ∧ (ss.length : Int) - ((segments.length : Int) - 1) = 1)))
  else kvs

/-- The per-key match in `ETCD.loopNodes` when `star` is set
(src/unnamed/part_000:147): walk the query's path parts; a query longer than
the key rejects the key; `*`/`any` parts match anything; other parts must be
equal. -/
def starMatch : List String → List String → Bool
  | [], _ => true
  | _ :: _, [] => false
  | n :: ns, k :: ks => (decide (n = "*") || decide (n = "any") || decide (k = n)) && starMatch ns ks

/-- `ETCD.loopNodes` (src/unnamed/part_000:140) with the `bx` dedup set and `sx`
output threaded explicitly.  A key failing the star match is skipped; a value
that does not decode aborts with an error naming the key (the Go code formats
`fmt.Errorf("%s: %s", n.Key, err)`; the decoder detail string is abstracted);
duplicates (keyed by the decoded Service with `key` set, before TTL/priority
assignment) are dropped; TTL and default priority are then assigned and
`shouldInclude` decides membership. -/
def loopNodesGo (nameParts : List String) (star : Bool) (qType : Nat) :
    List KV → List Service → List Service → Except RErr (List Service)
  | [], _, sx => .ok sx
  | n :: rest, bx, sx =>
    if star ∧ ¬ starMatch nameParts (splitChar '/' n.key) then
      loopNodesGo nameParts star qType rest bx sx
    else
      match unmarshalService n.value with
      | none => .error (.decode (n.key ++ ": unmarshal error"))
      | some serv0 =>
        let serv1 := { serv0 with key := n.key }
        if serv1 ∈ bx then loopNodesGo nameParts star qType rest bx sx
        else
          let serv2 := { serv1 with
            ttl := ttlOf (n.lease % 2 ^ 32) serv1.ttl,
            priority := if serv1.priority = 0 then defaultPriority else serv1.priority }
          loopNodesGo nameParts star qType rest (bx ++ [serv1])
            (if shouldInclude serv2 qType then sx ++ [serv2] else sx)

def loopNodes (kvs : List KV) (nameParts : List String) (star : Bool) (qType : Nat) :
    Except RErr (List Service) :=
  loopNodesGo nameParts star qType kvs [] []

/-- `ETCD.pathExist` (src/unnamed/part_000:233): a raw prefix scan (no `/`
appended) on the wildcard path of the joined labels. -/
def pathExist (st : EtcdStore) (pfx : String) (ss : List String) : Bool :=
  let p := pathWithWildcard (joinSep "." ss) pfx
  decide ((etcdPrefixGet st p.1).length > 0)

/-- The resolver configuration fields of the `ETCD` struct
(src/unnamed/part_000:31).  `wildcardBound` holds the value of the Go `int8`
field `WildcardBound`. -/
structure Config where
  zones : List String
  pathPfx : String
  wildcardBound : Int
  deriving Repr

/-- `ETCD.Records` (src/unnamed/part_000:71): zone-prefix filter, wildcard
collapse (only when `WildcardBound > 0` and the query is not TXT, the name has
more labels than the bound, and no key exists at the full path), path encoding,
backend fetch, sibling filter, and `loopNodes`.  The Go slice expression
`temp[start:]` (with `start := int8(len(temp)) - e.WildcardBound` in `int8`
arithmetic) is modelled by `List.drop` of the clamped index. -/
def records (cfg : Config) (st : EtcdStore) (name0 : String) (qType : Nat) (exact : Bool) :
    Except RErr (List Service) :=
  if cfg.zones.any (fun zone => startsWith name0 zone) then .ok []
  else
    let name :=
      if cfg.wildcardBound > 0 ∧ qType ≠ typeTXT then
        let temp := splitDomainName name0
        if int8Wrap (temp.length : Int) > cfg.wildcardBound ∧ ¬ pathExist st cfg.pathPfx temp then
          "*." ++ joinSep "." (temp.drop (int8Wrap (int8Wrap (temp.length : Int) - cfg.wildcardBound)).toNat)
        else name0
      else name0
    let ps := pathWithWildcard name cfg.pathPfx
    match get st ps.1 (!exact) with
    | .error e => .error e
    | .ok r =>
      let segments := splitChar '/' (msgPath name cfg.pathPfx)
      loopNodes (filterKvs cfg.wildcardBound r segments qType) segments ps.2 qType

/-! ## Scenario S1 (claim C1): concrete configuration and store -/

deriving instance DecidableEq for Except

/-- S1 configuration: `zones=["lb.example."]`, `wildcardBound=3`,
`pathPrefix="rdnsv3"`. -/
def s1Config : Config :=
  { zones := ["lb.example."], pathPfx := "rdnsv3", wildcardBound := 3 }

/-- The S1 stored value, the serialization of `{"host":"1.2.3.4"}`. -/
def s1Value : String :=
  renderFlatObj [("host", JVal.jstr "1.2.3.4")]

/-- The S1 store: exactly one key `rdnsv3/example/lb/*/1_2_3_4` (keys carry the
leading `/` of the `msg` path encoding) whose lease has 100 seconds left. -/
def s1Store : EtcdStore :=
  [{ key := "/rdnsv3/example/lb/*/1_2_3_4", value := s1Value, lease := 100 }]

/-- The keep-condition of claim C5, written from the spec's words (§4.4.5) with
plain integer arithmetic: the KV is kept iff it is not the collapsed-wildcard
case (leaf matching the IPv4 literal pattern with `wildcardBound` equal to
`len(segments) - 3`), and its key is exactly one path level below the query
(one level below the starred parent when the leaf is `*`). -/
def filterKeepSpec (wb : Int) (segments : List String) (kv : KV) : Bool :=
  let ss := splitChar '/' kv.key
  let leaf := (segments.getLast?).getD ""
  decide (¬(isIPLabel leaf = true ∧ wb = (segments.length : Int) - 3) ∧
    ((leaf ≠ "*" ∧ (ss.length : Int) - (segments.length : Int) = 1) ∨
     (leaf = "*" ∧ (ss.length : Int) - ((segments.length : Int) - 1) = 1)))

/-- Claim C4's concrete scenario: a resolver configuration with no wildcard
collapse. -/
def c4Config : Config :=
  { zones := ["lb.example."], pathPfx := "rdnsv3", wildcardBound := 0 }

/-- A well-formed stored record under `host1.lb.example.`. -/
def c4Good : KV :=
  { key := "/rdnsv3/example/lb/host1/good", value := renderFlatObj [("host", JVal.jstr "2.2.2.2")] }

/-- A sibling record holding malformed JSON. -/
def c4Bad : KV :=
  { key := "/rdnsv3/example/lb/host1/bad", value := "notjson" }

def c4Store : EtcdStore := [c4Good, c4Bad]

/-! ## Key/value store layer (src/database/keyvalue) -/

/-- Errors surfaced by the key/value layer: the create-only `O_EXCL` failure and
JSON decode failures. -/
inductive KVErr where
  | alreadyExists
  | decode
  deriving DecidableEq, Repr

/-- `keyvalue.Token` (kvstore.go:44): `{token, fqdn, createdOn}`, all
`omitempty`. -/
structure Token where
  token : String := ""
  fqdn : String := ""
  createdOn : Int := 0
  deriving DecidableEq, Repr

/-- `keyvalue.FrozenPrefix` (kvstore.go:39): `{token, createdOn}`, both
`omitempty`. -/
structure FrozenEntry where
  token : String := ""
  createdOn : Int := 0
  deriving DecidableEq, Repr

/-- Modelled from the spec: `model.Token` (the `model` package is not under
src/); its fields are fixed by the constructor in `QueryToken`
(kvstore.go:150-155): `{ID, Token, Fqdn, CreatedOn}`. -/
structure ModelToken where
  id : Int := 0
  token : String := ""
  fqdn : String := ""
  createdOn : Int := 0
  deriving DecidableEq, Repr

/-- Modelled from the spec: `model.SubRecordA` (§3): `{fqdn, hosts[], tid}`
(the optional text is irrelevant to the claims). -/
structure SubRecordA where
  fqdn : String := ""
  hosts : List String := []
  tid : Int := 0
  deriving DecidableEq, Repr

/-- Modelled from the spec: `model.RecordTXT` (§3): `{fqdn, text, tid}`. -/
structure RecordTXT where
  fqdn : String := ""
  text : String := ""
  tid : Int := 0
  deriving DecidableEq, Repr

/-- Go `json.Marshal` of `keyvalue.Token`: fields in struct order, zero-valued
fields omitted (`omitempty`). -/
def marshalToken (t : Token) : String :=
  renderFlatObj
    ((if t.token = "" then [] else [("token", JVal.jstr t.token)]) ++
     (if t.fqdn = "" then [] else [("fqdn", JVal.jstr t.fqdn)]) ++
     (if t.createdOn = 0 then [] else [("createdOn", JVal.jnum t.createdOn)]))

/-- Go `json.Unmarshal` into a `Token` target: merge parsed fields into `t`,
failing on a known field of the wrong JSON kind, ignoring unknown fields
(Go field matching is case-insensitive; the exact tag names suffice here). -/
def tokenSetField (t : Token) : String × JVal → Option Token
  | ("token", .jstr s) => some { t with token := s }
  | ("token", _) => none
  | ("fqdn", .jstr s) => some { t with fqdn := s }
  | ("fqdn", _) => none
  | ("createdOn", .jnum n) => some { t with createdOn := n }
  | ("createdOn", _) => none
  | _ => some t

def unmarshalToken (t0 : Token) (s : String) : Option Token :=
  (parseFlatObj s).bind (foldFields tokenSetField t0)

/-- The `struct{ CreatedOn int64 }` probe that both backends' `GetExpiredValues`
decode each stored object into. -/
def createdOnOf (s : String) : Option Int :=
  (parseFlatObj s).bind (foldFields (fun (c : Int) f =>
    match f with
    | ("createdOn", .jnum n) => some n
    | ("createdOn", _) => none
    | _ => some c) 0)

/-! ### Flat filesystem backend (src/database/keyvalue/filesystem/file.go)

`New` creates one directory per value type under the root; a stored object is
one file addressed by the (value-type, name) pair, holding raw JSON bytes. -/

abbrev FsState := List ((String × String) × String)

/-- The contents of file `<root>/<valueType>/<name>`, when it exists. -/
def fsLookup (st : FsState) (valueType name : String) : Option String :=
  (st.find? (fun e => decide (e.1 = (valueType, name)))).map (fun e => e.2)

/-- The listing of the `<root>/<valueType>` directory (entry order abstracts
`ioutil.ReadDir`'s name ordering; the claims are order-insensitive). -/
def fsBucket (st : FsState) (valueType : String) : FsState :=
  st.filter (fun e => decide (e.1.1 = valueType))

/-- Replace the contents of an existing file. -/
def fsSet (st : FsState) (valueType name v : String) : FsState :=
  st.map (fun e => if e.1 = (valueType, name) then (e.1, v) else e)

/-- `Filesystem.writeValue` (file.go:44): `j` is the `json.Marshal` of the
metadata argument (which cannot fail for the repository's record types).
Without `update` the file is opened `O_EXCL|O_RDWR|O_CREATE`, failing when it
exists; with `update` it is opened `O_RDWR|O_CREATE` — no `O_TRUNC` — so the
new bytes overwrite the front of the old contents and a longer tail
survives. -/
def fsWriteValue (st : FsState) (name valueType j : String) (update : Bool) :
    Except KVErr FsState :=
  match fsLookup st valueType name with
  | none => .ok (st ++ [((valueType, name), j)])
  | some old =>
    if update then
      .ok (fsSet st valueType name (String.mk (j.data ++ old.data.drop j.data.length)))
    else .error .alreadyExists

/-- `Filesystem.SetValue` (file.go:36). -/
def fsSetValue (st : FsState) (name valueType j : String) : Except KVErr FsState :=
  fsWriteValue st name valueType j false

/-- `Filesystem.UpdateValue` (file.go:40). -/
def fsUpdateValue (st : FsState) (name valueType j : String) : Except KVErr FsState :=
  fsWriteValue st name valueType j true

/-- `Filesystem.DeleteValue` (file.go:96): idempotent. -/
def fsDeleteValue (st : FsState) (name valueType : String) : Except KVErr FsState :=
  .ok (st.filter (fun e => !decide (e.1 = (valueType, name))))

/-- `Filesystem.ListValues` (file.go:111): the file names of the type's
directory. -/
def fsListValues (st : FsState) (valueType : String) : List String :=
  (fsBucket st valueType).map (fun e => e.1.2)

/-- The scan loop of `Filesystem.GetExpiredValues` (file.go:73) over a
directory listing: decode each file's `createdOn`, collect names below the
cutoff, abort on a decode failure. -/
def fsGetExpiredGo (cutoff : Int) : FsState → Except KVErr (List String)
  | [] => .ok []
  | e :: rest =>
    match createdOnOf e.2 with
    | none => .error .decode
    | some c =>
      match fsGetExpiredGo cutoff rest with
      | .error err => .error err
      | .ok names => .ok (if c < cutoff then e.1.2 :: names else names)

def fsGetExpiredValues (st : FsState) (valueType : String) (cutoff : Int) :
    Except KVErr (List String) :=
  fsGetExpiredGo cutoff (fsBucket st valueType)

/-- `Filesystem.GetValue` into a zero `Token` target, as `QueryToken` calls it
(file.go:125): a missing file is `("", nil)` and leaves the target zero;
present contents must decode. -/
def fsGetTokenValue (st : FsState) (name : String) : Except KVErr Token :=
  match fsLookup st "token" name with
  | none => .ok {}
  | some data =>
    match unmarshalToken {} data with
    | none => .error .decode
    | some t => .ok t

/-! ### K8s config-map backend (src/database/keyvalue/k8s/k8s.go) -/

/-- A ConfigMap as the k8s store shapes it (k8s.go:61-109): generated object
name, the `rdns-name` annotation, the `rdns-value-type` label, and the JSON
payload under the `data` key. -/
structure CMEntry where
  cmName : String
  rdnsName : String
  valueType : String
  data : String
  deriving DecidableEq, Repr

abbrev K8sState := List CMEntry

/-- `K8sStore.generateName` (k8s.go:55): the hex md5 of the logical name joined
with the value type by `-`.  md5 is abstracted as `hash`; the only fact the
proofs use is that hex md5 output always has 32 characters. -/
def generateName (hash : String → String) (name valueType : String) : String :=
  hash name ++ "-" ++ valueType

def k8sFind (st : K8sState) (cmName : String) : Option CMEntry :=
  st.find? (fun e => decide (e.cmName = cmName))

/-- `K8sStore.writeValue` (k8s.go:61): get by generated name; create when
absent, otherwise update the existing ConfigMap in place.  The `update`
parameter is accepted but never read, so `SetValue` over an existing name
silently overwrites it.  `j` is the `json.Marshal` of the metadata. -/
def k8sWriteValue (hash : String → String) (st : K8sState) (name valueType j : String)
    (update : Bool) : Except KVErr K8sState :=
  let rname := generateName hash name valueType
  match k8sFind st rname with
  | none =>
    .ok (st ++ [{ cmName := rname, rdnsName := name, valueType := valueType, data := j }])
  | some _ =>
    .ok (st.map (fun e =>
      if e.cmName = rname then
        { cmName := rname, rdnsName := name, valueType := valueType, data := j }
      else e))

/-- `K8sStore.SetValue` (k8s.go:47). -/
def k8sSetValue (hash : String → String) (st : K8sState) (name valueType j : String) :
    Except KVErr K8sState :=
  k8sWriteValue hash st name valueType j false

/-- `K8sStore.UpdateValue` (k8s.go:51). -/
def k8sUpdateValue (hash : String → String) (st : K8sState) (name valueType j : String) :
    Except KVErr K8sState :=
  k8sWriteValue hash st name valueType j true

/-- `K8sStore.DeleteValue` (k8s.go:111): idempotent, keyed by generated name. -/
def k8sDeleteValue (hash : String → String) (st : K8sState) (name valueType : String) :
    Except KVErr K8sState :=
  .ok (st.filter (fun e => !decide (e.cmName = generateName hash name valueType)))

/-- `K8sStore.ListValues` (k8s.go:131): the `rdns-name` annotations of the
ConfigMaps carrying the `rdns-value-type` label. -/
def k8sListValues (st : K8sState) (valueType : String) : List String :=
  (st.filter (fun e => decide (e.valueType = valueType))).map (fun e => e.rdnsName)

/-- The raw payload `K8sStore.GetValue` (k8s.go:149) finds for a logical
(name, type): `none` models the `IsNotFound` branch returning `("", nil)`. -/
def k8sGetRaw (hash : String → String) (st : K8sState) (valueType name : String) :
    Option String :=
  (k8sFind st (generateName hash name valueType)).map (fun e => e.data)

/-- The scan loop of `K8sStore.GetExpiredValues` (k8s.go:173): for every listed
name, `GetValue` into the `createdOn` probe (an entry that vanished reads as
zero), collect names below the cutoff, abort on a decode failure. -/
def k8sGetExpiredGo (hash : String → String) (st : K8sState) (valueType : String)
    (cutoff : Int) : List String → Except KVErr (List String)
  | [] => .ok []
  | n :: rest =>
    match (match k8sGetRaw hash st valueType n with
           | none => some 0
           | some data => createdOnOf data) with
    | none => .error .decode
    | some c =>
      match k8sGetExpiredGo hash st valueType cutoff rest with
      | .error err => .error err
      | .ok names => .ok (if c < cutoff then n :: names else names)

def k8sGetExpiredValues (hash : String → String) (st : K8sState) (valueType : String)
    (cutoff : Int) : Except KVErr (List String) :=
  k8sGetExpiredGo hash st valueType cutoff (k8sListValues st valueType)

/-! ### Typed record-store operations (src/database/keyvalue/kvstore.go) -/

/-- `KeyValueBackend.RenewFrozen` (kvstore.go:76) over the typed frozen-prefix
bucket.  The Go method declares `var metadata *FrozenPrefix` — a nil pointer —
and passes it to `GetValue`; Go interfaces are passed by value, so `GetValue`
decodes into its own copy and the caller's `metadata` is still nil afterwards.
The `metadata == nil` check therefore always fires and the `SetValue` with the
refreshed `createdOn` is dead code (and would be the create-only `SetValue`,
not `UpdateValue`, if it ran). -/
def renewFrozen (bucket : List (String × FrozenEntry)) (p : String) (now : Int) :
    Except KVErr (List (String × FrozenEntry)) :=
  let metadata : Option FrozenEntry := none
  match metadata with
  | none => .ok bucket
  | some m =>
    if ((bucket.find? (fun e => decide (e.1 = p))).isSome : Bool) then .error .alreadyExists
    else .ok (bucket ++ [(p, { m with createdOn := now })])

/-- `KeyValueBackend.QueryToken` (kvstore.go:143) over the raw bytes the
backend's `GetValue` finds under (name, "token"): absent bytes leave the zero
`Token` (both backends return `("", nil)` on not-found); present bytes must
decode into it; the result is re-packed as a `model.Token` with
`ID = CreatedOn`. -/
def queryTokenFrom (raw : Option String) : Except KVErr ModelToken :=
  match (match raw with
         | none => some ({} : Token)
         | some data => unmarshalToken {} data) with
  | none => .error .decode
  | some t => .ok { id := t.createdOn, token := t.token, fqdn := t.fqdn, createdOn := t.createdOn }

/-- `KeyValueBackend.QuerySubA` (kvstore.go:257) over the typed sub-A bucket:
`GetValue` into a zero record; a missing object leaves it zero, nil error.
The bucket is typed (name ↦ record), abstracting the JSON round-trip. -/
def querySubA (bucket : List (String × SubRecordA)) (name : String) : SubRecordA :=
  ((bucket.find? (fun e => decide (e.1 = name))).map (fun e => e.2)).getD {}

/-- `KeyValueBackend.ListSubA` (kvstore.go:267): `ListValues` enumerates the
bucket's names, `QuerySubA` reads each record, and every record is appended.
The `id` parameter is declared but never used in the loop. -/
def listSubA (bucket : List (String × SubRecordA)) (id : Int) : List SubRecordA :=
  (bucket.map (fun e => e.1)).map (querySubA bucket)

/-- `KeyValueBackend.QueryTXT` (kvstore.go:324) over the typed TXT bucket. -/
def queryTXT (bucket : List (String × RecordTXT)) (name : String) : RecordTXT :=
  ((bucket.find? (fun e => decide (e.1 = name))).map (fun e => e.2)).getD {}

/-- `KeyValueBackend.QueryExpiredTXTs` (kvstore.go:334): enumerate the bucket's
names, read each record, and keep those whose `TID` equals `id`. -/
def queryExpiredTXTs (bucket : List (String × RecordTXT)) (id : Int) : List RecordTXT :=
  (((bucket.map (fun e => e.1)).map (queryTXT bucket)).filter (fun r => decide (r.tid = id)))

/-! ### Mutations and per-type views (claim C9) -/

/-- A backend mutation: `Set`, `Update` or `Delete` under a (name, type). -/
inductive Mutation where
  | set (name valueType j : String)
  | update (name valueType j : String)
  | del (name valueType : String)
  deriving Repr

def Mutation.valueType : Mutation → String
  | .set _ t _ => t
  | .update _ t _ => t
  | .del _ t => t

/-- The filesystem state after a mutation (a failed create leaves the state as
it was). -/
def fsApply (m : Mutation) (st : FsState) : FsState :=
  match m with
  | .set n t j =>
    match fsSetValue st n t j with
    | .ok st2 => st2
    | .error _ => st
  | .update n t j =>
    match fsUpdateValue st n t j with
    | .ok st2 => st2
    | .error _ => st
  | .del n t =>
    match fsDeleteValue st n t with
    | .ok st2 => st2
    | .error _ => st

/-- The k8s state after a mutation. -/
def k8sApply (hash : String → String) (m : Mutation) (st : K8sState) : K8sState :=
  match m with
  | .set n t j =>
    match k8sSetValue hash st n t j with
    | .ok st2 => st2
    | .error _ => st
  | .update n t j =>
    match k8sUpdateValue hash st n t j with
    | .ok st2 => st2
    | .error _ => st
  | .del n t =>
    match k8sDeleteValue hash st n t with
    | .ok st2 => st2
    | .error _ => st

/-- Well-formedness of a k8s store state: every ConfigMap's object name is the
generated name of its own annotation and label — every `writeValue` creates or
rewrites entries in exactly that shape. -/
def K8sWF (hash : String → String) (st : K8sState) : Prop :=
  ∀ e ∈ st, e.cmName = generateName hash e.rdnsName e.valueType

/-- A concrete stand-in for the md5 hex function (any 32-character output). -/
def c6Hash : String → String := fun _ => "0123456789abcdef0123456789abcdef"

/-- A pre-existing ConfigMap under logical name `n`, type `token`. -/
def c6Entry : CMEntry :=
  { cmName := "0123456789abcdef0123456789abcdef-token", rdnsName := "n",
    valueType := "token", data := "olddata" }

/-! ## Theorems -/

/-- For path-segment lists no longer than 130 (a DNS name has at most 127
labels, so a `msg` path splits into at most 129 segments), Go's `int8`
conversion and subtraction in `filterKvs` agree with plain integer
arithmetic. -/
theorem int8Wrap_sub3 (L : Nat) (h : L ≤ 130) :
    int8Wrap (int8Wrap (L : Int) - 3) = (L : Int) - 3 := by
  unfold int8Wrap
  omega

/-- C1 (counterexample): in scenario S1 the claim fails on the code.  The query
`foo.bar.baz.1_2_3_4.lb.example.` collapses to `*.1_2_3_4.lb.example`, whose
wildcard path is `/rdnsv3/example/lb/1_2_3_4`; neither the prefix scan under it
nor the exact fallback matches the stored key `/rdnsv3/example/lb/*/1_2_3_4`,
so `Records` does not succeed: it returns the `errKeyNotFound` sentinel and no
Service at all. -/
theorem c1_s1_counterexample :
    records s1Config s1Store "foo.bar.baz.1_2_3_4.lb.example." typeA false =
      .error .keyNotFound := by
  decide

/-- C1 (amended): in the S1 scenario `Records` on query
`foo.bar.baz.1_2_3_4.lb.example.` with type A (exact=false) returns the
key-not-found sentinel — the one `IsNameError` recognizes, so the DNS framework
answers NXDOMAIN — rather than any Service. -/
theorem c1_s1_amended :
    records s1Config s1Store "foo.bar.baz.1_2_3_4.lb.example." typeA false =
      .error .keyNotFound ∧
    isNameError .keyNotFound = true := by
  decide

/-- C2: TTL negotiation (`ETCD.TTL`) over the `uint32` lease TTL and service
TTL: both zero → default 300; exactly one zero → the non-zero one; both
non-zero → the minimum; in particular `(200, 50) ↦ 50`, `(0, 0) ↦ 300` and
`(77, 0) ↦ 77`. -/
theorem c2_ttl_negotiation :
    (∀ leaseTTL servTTL : Nat, leaseTTL < 2 ^ 32 → servTTL < 2 ^ 32 →
      (leaseTTL = 0 → servTTL = 0 → ttlOf leaseTTL servTTL = 300) ∧
      (leaseTTL = 0 → servTTL ≠ 0 → ttlOf leaseTTL servTTL = servTTL) ∧
      (leaseTTL ≠ 0 → servTTL = 0 → ttlOf leaseTTL servTTL = leaseTTL) ∧
      (leaseTTL ≠ 0 → servTTL ≠ 0 → ttlOf leaseTTL servTTL = min leaseTTL servTTL)) ∧
    ttlOf 200 50 = 50 ∧ ttlOf 0 0 = 300 ∧ ttlOf 77 0 = 77 := by
  refine ⟨?_, by decide, by decide, by decide⟩
  intro l s _ _
  refine ⟨?_, ?_, ?_, ?_⟩ <;> intro h1 h2 <;> simp only [ttlOf] <;> split_ifs <;> omega

/-- Witness for C2 at concrete inputs. -/
theorem c2_ttl_negotiation_witness :
    ttlOf 0 7 = 7 ∧ ttlOf 200 50 = min 200 50 :=
  ⟨(c2_ttl_negotiation.1 0 7 (by decide) (by decide)).2.1 rfl (by decide),
   (c2_ttl_negotiation.1 200 50 (by decide) (by decide)).2.2.2 (by decide) (by decide)⟩

/-- C5: for TypeA queries `filterKvs` keeps a KV iff the claim's sibling
condition holds of it — not the collapsed-wildcard case, and exactly one path
level below the (possibly starred) query path — and for any other query type it
returns the KV list unchanged.  The length bound covers every path split of a
DNS name (at most 129 segments). -/
theorem c5_sibling_filter (wb : Int) (kvs : List KV) (segments : List String) (qType : Nat)
    (hlen : segments.length ≤ 130) :
    filterKvs wb kvs segments typeA = kvs.filter (filterKeepSpec wb segments) ∧
    (qType ≠ typeA → filterKvs wb kvs segments qType = kvs) := by
  constructor
  · show (if typeA = typeA then _ else kvs) = _
    rw [if_pos rfl]
    apply List.filter_congr
    intro kv _
    rw [int8Wrap_sub3 segments.length hlen]
    by_cases hm : isIPLabel ((segments.getLast?).getD "") = true
    · have hs : (segments.getLast?).getD "" ≠ "*" := by
        intro h
        rw [h] at hm
        exact absurd hm (by decide)
      by_cases hwb : wb = (segments.length : Int) - 3
      · rw [if_pos ⟨hs, hm, hwb⟩]
        simp [filterKeepSpec, hm, hwb]
      · rw [if_neg (by intro h; exact hwb h.2.2)]
        simp [filterKeepSpec, hm, hwb]
    · have hm2 : isIPLabel ((segments.getLast?).getD "") = false := by
        simpa using hm
      rw [if_neg (by intro h; exact hm h.2.1)]
      simp [filterKeepSpec, hm2]
  · intro hq
    simp [filterKvs, hq]

/-- Witness for C5: the sibling filter on a concrete store and query path (the
S3-style layout: host record one level below, sub-record two levels below), and
TXT passthrough. -/
theorem c5_sibling_filter_witness :
    filterKvs 3 [{ key := "/rdnsv3/example/lb/host1/1_2_3_4", value := "" },
        { key := "/rdnsv3/example/lb/host1/sub/1_2_3_4", value := "" }]
      ["", "rdnsv3", "example", "lb", "host1"] typeA =
      [{ key := "/rdnsv3/example/lb/host1/1_2_3_4", value := "" },
        { key := "/rdnsv3/example/lb/host1/sub/1_2_3_4", value := "" }].filter
        (filterKeepSpec 3 ["", "rdnsv3", "example", "lb", "host1"]) ∧
    filterKvs 3 [{ key := "/rdnsv3/example/lb/host1/1_2_3_4", value := "" },
        { key := "/rdnsv3/example/lb/host1/sub/1_2_3_4", value := "" }]
      ["", "rdnsv3", "example", "lb", "host1"] typeTXT =
      [{ key := "/rdnsv3/example/lb/host1/1_2_3_4", value := "" },
        { key := "/rdnsv3/example/lb/host1/sub/1_2_3_4", value := "" }] :=
  ⟨(c5_sibling_filter 3 _ _ typeTXT (by decide)).1,
   (c5_sibling_filter 3 _ _ typeTXT (by decide)).2 (by decide)⟩

/-- C4 (counterexample): with one malformed KV among the records returned for
`host1.lb.example.`, `Records` does not skip it and continue — the whole query
fails with a decode error naming the offending key (`loopNodes` returns on the
first `json.Unmarshal` failure, src/unnamed/part_000:161-163). -/
theorem c4_decode_counterexample :
    records c4Config c4Store "host1.lb.example." typeA false =
      .error (.decode "/rdnsv3/example/lb/host1/bad: unmarshal error") := by
  decide

/-- Helper for C4: with `star = false` every KV is decoded in order, so the
first malformed KV aborts `loopNodesGo` with its key in the error, for any
accumulator state. -/
theorem loopNodesGo_decode_error (nameParts : List String) (qType : Nat) (bad : KV)
    (rest : List KV) (hbad : unmarshalService bad.value = none) :
    ∀ (pre : List KV) (bx sx : List Service),
      (∀ kv ∈ pre, (unmarshalService kv.value).isSome = true) →
      loopNodesGo nameParts false qType (pre ++ bad :: rest) bx sx =
        .error (.decode (bad.key ++ ": unmarshal error")) := by
  intro pre
  induction pre with
  | nil =>
    intro bx sx _
    simp [loopNodesGo, hbad]
  | cons kv pre ih =>
    intro bx sx h
    have hkv := h kv (List.mem_cons_self kv pre)
    obtain ⟨s, hs⟩ := Option.isSome_iff_exists.mp hkv
    have htail : ∀ kv2 ∈ pre, (unmarshalService kv2.value).isSome = true :=
      fun kv2 hm => h kv2 (List.mem_cons_of_mem kv hm)
    simp only [List.cons_append, loopNodesGo, hs, Bool.false_eq_true, false_and, if_false]
    split
    · exact ih _ _ htail
    · exact ih _ _ htail

/-- C4 (amended): a single decode failure makes the whole query fail.  For a
non-star lookup, if every KV before the malformed one decodes, `loopNodes`
returns an error naming the malformed KV's key; no Services are returned for
the well-formed records. -/
theorem c4_amended (pre rest : List KV) (bad : KV) (nameParts : List String) (qType : Nat)
    (hbad : unmarshalService bad.value = none)
    (hpre : ∀ kv ∈ pre, (unmarshalService kv.value).isSome = true) :
    loopNodes (pre ++ bad :: rest) nameParts false qType =
      .error (.decode (bad.key ++ ": unmarshal error")) :=
  loopNodesGo_decode_error nameParts qType bad rest hbad pre [] [] hpre

/-- Witness for C4 (amended) at the concrete S-style store. -/
theorem c4_amended_witness :
    loopNodes [c4Good, c4Bad] ["", "rdnsv3", "example", "lb", "host1"] false typeA =
      .error (.decode "/rdnsv3/example/lb/host1/bad: unmarshal error") :=
  c4_amended [c4Good] [] c4Bad _ typeA (by decide) (by decide)

/-- C3 (code bug): `RenewFrozen` on a present frozen prefix returns success but
never persists the refreshed `createdOn`: with the prefix `p` stored at
`createdOn = 5` and the wall clock at 99, the call succeeds and the store is
unchanged — the stored `createdOn` is still 5, not 99.  The nil
`*FrozenPrefix` out-parameter is passed by value, so the
`metadata == nil` early return always fires. -/
theorem c3_renew_frozen_bug :
    renewFrozen [("p", { createdOn := 5 })] "p" 99 = .ok [("p", { createdOn := 5 })] ∧
    (5 : Int) ≠ 99 := by
  decide

/-- C6 (counterexample): on the k8s backend, `SetValue` over an existing
(name, type) does not fail with already-exists — `writeValue` ignores its
`update` flag and updates the found ConfigMap, silently replacing the stored
value. -/
theorem c6_k8s_set_counterexample :
    k8sSetValue c6Hash [c6Entry] "n" "token" "newdata" =
      .ok [{ cmName := "0123456789abcdef0123456789abcdef-token", rdnsName := "n",
             valueType := "token", data := "newdata" }] ∧
    "olddata" ≠ "newdata" := by
  decide

/-- C6 (amended): Insert semantics is create-only on the filesystem backend —
`SetValue` over an existing (name, type) fails with the `O_EXCL` already-exists
error and the state is untouched — while on the k8s backend `SetValue` is
indistinguishable from `UpdateValue`: the unread `update` flag makes both
overwrite an existing ConfigMap. -/
theorem c6_amended :
    (∀ (st : FsState) (name t j old : String), fsLookup st t name = some old →
      fsSetValue st name t j = .error .alreadyExists) ∧
    (∀ (hash : String → String) (st : K8sState) (name t j : String),
      k8sSetValue hash st name t j = k8sUpdateValue hash st name t j) := by
  constructor
  · intro st name t j old h
    simp [fsSetValue, fsWriteValue, h]
  · intro hash st name t j
    rfl

/-- Witness for C6 (amended) at a concrete store. -/
theorem c6_amended_witness :
    fsSetValue [(("token", "n"), "olddata")] "n" "token" "newdata" = .error .alreadyExists ∧
    k8sSetValue c6Hash [c6Entry] "n" "token" "newdata" =
      k8sUpdateValue c6Hash [c6Entry] "n" "token" "newdata" :=
  ⟨c6_amended.1 _ "n" "token" "newdata" "olddata" (by decide),
   c6_amended.2 c6Hash [c6Entry] "n" "token" "newdata"⟩

/-- C7 (counterexample): `ListSubA 2` on a store holding one sub-A record with
`TID = 1` returns that record — records owned by a different token id are NOT
excluded, because the loop in `ListSubA` never consults `id`. -/
theorem c7_list_suba_counterexample :
    listSubA [("a.lb.example.", { fqdn := "a.lb.example.", tid := 1 })] 2 =
      [{ fqdn := "a.lb.example.", hosts := [], tid := 1 }] ∧ (1 : Int) ≠ 2 := by
  decide

/-- Retrieving every listed name from an association bucket with distinct names
returns exactly the stored records, in order. -/
theorem assoc_map_retrieve {β : Type} (d : β) (bucket : List (String × β))
    (hnd : (bucket.map (fun e => e.1)).Nodup) :
    (bucket.map (fun e => e.1)).map
      (fun n => ((bucket.find? (fun e => decide (e.1 = n))).map (fun e => e.2)).getD d) =
    bucket.map (fun e => e.2) := by
  induction bucket with
  | nil => rfl
  | cons hd tl ih =>
    simp only [List.map_cons, List.nodup_cons] at hnd ⊢
    obtain ⟨hni, hnd2⟩ := hnd
    congr 1
    · simp [List.find?]
    · rw [List.map_congr_left, ih hnd2]
      intro n hn
      have hne : ¬ hd.1 = n := by
        intro h
        exact hni (h ▸ hn)
      simp [List.find?, hne]

/-- C7 (amended): `ListSubA t` ignores its token-id argument and returns every
stored sub-A record (for any two ids the results coincide, and with distinct
stored names the result is exactly the full bucket); only `QueryExpiredTXTs`
filters by `TID = id`. -/
theorem c7_amended (bucket : List (String × SubRecordA)) (id1 id2 : Int)
    (hnd : (bucket.map (fun e => e.1)).Nodup) :
    listSubA bucket id1 = listSubA bucket id2 ∧
    listSubA bucket id1 = bucket.map (fun e => e.2) ∧
    (∀ (txts : List (String × RecordTXT)) (id : Int), (txts.map (fun e => e.1)).Nodup →
      queryExpiredTXTs txts id = (txts.map (fun e => e.2)).filter (fun r => decide (r.tid = id))) := by
  refine ⟨rfl, ?_, ?_⟩
  · exact assoc_map_retrieve {} bucket hnd
  · intro txts id hnd2
    unfold queryExpiredTXTs
    exact congrArg (List.filter (fun r => decide (r.tid = id))) (assoc_map_retrieve {} txts hnd2)

/-- Witness for C7 (amended) at a concrete one-record store. -/
theorem c7_amended_witness :
    listSubA [("a.lb.example.", { fqdn := "a.lb.example.", tid := 1 })] 2 =
      listSubA [("a.lb.example.", { fqdn := "a.lb.example.", tid := 1 })] 7 ∧
    listSubA [("a.lb.example.", { fqdn := "a.lb.example.", tid := 1 })] 2 =
      [{ fqdn := "a.lb.example.", hosts := [], tid := 1 }] :=
  ⟨(c7_amended _ 2 7 (by decide)).1, (c7_amended _ 2 7 (by decide)).2.1⟩

/-- C8 (code bug): `UpdateValue` opens without `O_TRUNC`, so updating the key
`p` (type `token`) from the 18-byte serialization of `{token:"abcdef"}` to the
14-byte serialization of `{token:"ab"}` leaves the file holding the new bytes
followed by the stale tail of the old value; that is not the serialization of
the new value, and a subsequent `GetValue` fails to decode it instead of
returning the written value. -/
theorem c8_write_then_read_bug :
    fsUpdateValue [(("token", "p"), marshalToken { token := "abcdef" })] "p" "token"
        (marshalToken { token := "ab" }) =
      .ok [(("token", "p"), "\x7b\"token\":\"ab\"\x7def\"\x7d")] ∧
    "\x7b\"token\":\"ab\"\x7def\"\x7d" ≠ marshalToken { token := "ab" } ∧
    fsGetTokenValue [(("token", "p"), "\x7b\"token\":\"ab\"\x7def\"\x7d")] "p" =
      .error .decode := by
  decide

/-- C10: `QueryToken` on an FQDN with no stored token returns a non-nil
`model.Token` whose fields are all zero, with nil error, on both reference
backends; and a stored all-empty token (serialized by `omitempty` as the empty
object) produces the identical result, so the two cases are indistinguishable
from the result alone. -/
theorem c10_query_token_missing (st : FsState) (hash : String → String) (k8s : K8sState)
    (name : String) (hfs : fsLookup st "token" name = none)
    (hk8s : k8sGetRaw hash k8s "token" name = none) :
    queryTokenFrom (fsLookup st "token" name) = .ok ({} : ModelToken) ∧
    queryTokenFrom (k8sGetRaw hash k8s "token" name) = .ok ({} : ModelToken) ∧
    marshalToken {} = "\x7b\x7d" ∧
    queryTokenFrom (some (marshalToken {})) = .ok ({} : ModelToken) := by
  rw [hfs, hk8s]
  exact ⟨rfl, rfl, by decide, by decide⟩

/-- Witness for C10 on the empty stores. -/
theorem c10_query_token_missing_witness :
    queryTokenFrom (fsLookup [] "token" "x.lb.example.") = .ok ({} : ModelToken) ∧
    queryTokenFrom (k8sGetRaw c6Hash [] "token" "x.lb.example.") = .ok ({} : ModelToken) ∧
    marshalToken {} = "\x7b\x7d" ∧
    queryTokenFrom (some (marshalToken {})) = .ok ({} : ModelToken) :=
  c10_query_token_missing [] c6Hash [] "x.lb.example." (by decide) (by decide)


/-- A file lookup only consults its own value-type directory. -/
theorem fsLookup_bucket (st : FsState) (t n : String) :
    fsLookup (fsBucket st t) t n = fsLookup st t n := by
  induction st with
  | nil => rfl
  | cons e tl ih =>
    by_cases h1 : e.1.1 = t
    · by_cases h2 : e.1 = (t, n)
      · simp [fsBucket, fsLookup, List.filter_cons, List.find?, h1, h2]
      · simpa [fsBucket, fsLookup, List.filter_cons, List.find?, h1, h2] using ih
    · have h2 : ¬ e.1 = (t, n) := fun hx => h1 (by rw [hx])
      simpa [fsBucket, fsLookup, List.filter_cons, List.find?, h1, h2] using ih

/-- Creating a file of another value type leaves a type directory unchanged. -/
theorem fsBucket_append_other (st : FsState) {t1 t2 : String} (n j : String) (h : t1 ≠ t2) :
    fsBucket (st ++ [((t1, n), j)]) t2 = fsBucket st t2 := by
  simp [fsBucket, List.filter_append, h]

/-- Rewriting a file of another value type leaves a type directory unchanged. -/
theorem fsBucket_fsSet_other (st : FsState) {t1 t2 : String} (n v : String) (h : t1 ≠ t2) :
    fsBucket (fsSet st t1 n v) t2 = fsBucket st t2 := by
  induction st with
  | nil => rfl
  | cons e tl ih =>
    by_cases he : e.1 = (t1, n)
    · simpa [fsSet, fsBucket, List.filter_cons, he, h] using ih
    · by_cases h1 : e.1.1 = t2
      · simpa [fsSet, fsBucket, List.filter_cons, he, h1] using congrArg (List.cons e) ih
      · simpa [fsSet, fsBucket, List.filter_cons, he, h1] using ih

/-- Deleting a file of another value type leaves a type directory unchanged. -/
theorem fsBucket_filter_other (st : FsState) {t1 t2 : String} (n : String) (h : t1 ≠ t2) :
    fsBucket (st.filter (fun e => !decide (e.1 = (t1, n)))) t2 = fsBucket st t2 := by
  induction st with
  | nil => rfl
  | cons e tl ih =>
    by_cases h1 : e.1.1 = t2
    · have h2 : ¬ e.1 = (t1, n) := fun hx => h (by rw [hx] at h1; exact h1)
      simpa [fsBucket, List.filter_cons, h1, h2] using congrArg (List.cons e) ih
    · by_cases h2 : e.1 = (t1, n)
      · simpa [fsBucket, List.filter_cons, h1, h2, h] using ih
      · simpa [fsBucket, List.filter_cons, h1, h2] using ih

/-- No filesystem mutation under one value type changes another type directory. -/
theorem fsBucket_fsApply (m : Mutation) (t2 : String) (hm : m.valueType ≠ t2) (st : FsState) :
    fsBucket (fsApply m st) t2 = fsBucket st t2 := by
  cases m with
  | set n t j =>
    simp only [Mutation.valueType] at hm
    simp only [fsApply, fsSetValue, fsWriteValue]
    cases hl : fsLookup st t n with
    | none => exact fsBucket_append_other st n j hm
    | some old => rfl
  | update n t j =>
    simp only [Mutation.valueType] at hm
    simp only [fsApply, fsUpdateValue, fsWriteValue]
    cases hl : fsLookup st t n with
    | none => exact fsBucket_append_other st n j hm
    | some old => exact fsBucket_fsSet_other st n _ hm
  | del n t =>
    simp only [Mutation.valueType] at hm
    simp only [fsApply, fsDeleteValue]
    exact fsBucket_filter_other st n hm

/-- Distinct value types generate distinct ConfigMap names for any logical
names: the 32-character hash fixes the split point, so equal generated names
would force equal type suffixes. -/
theorem generateName_ne (hash : String → String) (hlen : ∀ s, (hash s).length = 32)
    {a b t1 t2 : String} (hne : t1 ≠ t2) : generateName hash a t1 ≠ generateName hash b t2 := by
  intro h
  apply hne
  have hd : (hash a).data ++ ('-' :: t1.data) = (hash b).data ++ ('-' :: t2.data) := by
    have h2 := congrArg String.data h
    simpa [generateName] using h2
  have hlen2 : (hash a).data.length = (hash b).data.length := by
    have ha := hlen a
    have hb := hlen b
    simp only [String.length] at ha hb
    rw [ha, hb]
  have h3 := (List.append_inj hd hlen2).2
  have h4 : t1.data = t2.data := by
    injection h3
  exact String.ext h4

/-- Appending a ConfigMap with a different object name does not change a
lookup. -/
theorem k8sFind_append_other (st : K8sState) (x : CMEntry) {r : String}
    (h : x.cmName ≠ r) : k8sFind (st ++ [x]) r = k8sFind st r := by
  induction st with
  | nil => simp [k8sFind, List.find?, h]
  | cons e tl ih =>
    by_cases he : e.cmName = r
    · simp [k8sFind, List.find?, he]
    · simpa [k8sFind, List.find?, he] using ih

/-- Rewriting the ConfigMap named `r1` in place does not change a lookup under
a different object name. -/
theorem k8sFind_map_other (st : K8sState) (x : CMEntry) {r r1 : String}
    (hx : x.cmName = r1) (h : r1 ≠ r) :
    k8sFind (st.map (fun e => if e.cmName = r1 then x else e)) r = k8sFind st r := by
  have h3 : ¬ r = r1 := fun hh => h hh.symm
  induction st with
  | nil => rfl
  | cons e tl ih =>
    by_cases he : e.cmName = r1
    · have h2 : ¬ e.cmName = r := by rw [he]; exact h
      simpa [k8sFind, List.find?, he, hx, h, h2, h3] using ih
    · by_cases h2 : e.cmName = r
      · simp [k8sFind, List.find?, he, h2, h3]
      · simpa [k8sFind, List.find?, he, h2, h3] using ih

/-- Removing the ConfigMap named `r1` does not change a lookup under a
different object name. -/
theorem k8sFind_filter_other (st : K8sState) {r r1 : String} (h : r1 ≠ r) :
    k8sFind (st.filter (fun e => !decide (e.cmName = r1))) r = k8sFind st r := by
  have h3 : ¬ r = r1 := fun hh => h hh.symm
  induction st with
  | nil => rfl
  | cons e tl ih =>
    by_cases he : e.cmName = r1
    · have h2 : ¬ e.cmName = r := by rw [he]; exact h
      simpa [k8sFind, List.filter_cons, List.find?, he, h2, h, h3] using ih
    · by_cases h2 : e.cmName = r
      · simp [k8sFind, List.filter_cons, List.find?, he, h2, h, h3]
      · simpa [k8sFind, List.filter_cons, List.find?, he, h2, h, h3] using ih


/-- No k8s mutation under one value type changes `GetValue` under another:
the generated names cannot collide across types. -/
theorem k8sGetRaw_apply (hash : String → String) (hlen : ∀ s, (hash s).length = 32)
    (m : Mutation) (t2 : String) (hm : m.valueType ≠ t2) (st : K8sState) (n2 : String) :
    k8sGetRaw hash (k8sApply hash m st) t2 n2 = k8sGetRaw hash st t2 n2 := by
  cases m with
  | set n t j =>
    simp only [Mutation.valueType] at hm
    have hne : generateName hash n t ≠ generateName hash n2 t2 := generateName_ne hash hlen hm
    simp only [k8sApply, k8sSetValue, k8sWriteValue]
    cases hf : k8sFind st (generateName hash n t) with
    | none =>
      simp only [k8sGetRaw]
      rw [k8sFind_append_other st _ hne]
    | some e =>
      simp only [k8sGetRaw]
      exact congrArg (Option.map (fun x => x.data))
        (k8sFind_map_other st
          { cmName := generateName hash n t, rdnsName := n, valueType := t, data := j } rfl hne)
  | update n t j =>
    simp only [Mutation.valueType] at hm
    have hne : generateName hash n t ≠ generateName hash n2 t2 := generateName_ne hash hlen hm
    simp only [k8sApply, k8sUpdateValue, k8sWriteValue]
    cases hf : k8sFind st (generateName hash n t) with
    | none =>
      simp only [k8sGetRaw]
      rw [k8sFind_append_other st _ hne]
    | some e =>
      simp only [k8sGetRaw]
      exact congrArg (Option.map (fun x => x.data))
        (k8sFind_map_other st
          { cmName := generateName hash n t, rdnsName := n, valueType := t, data := j } rfl hne)
  | del n t =>
    simp only [Mutation.valueType] at hm
    have hne : generateName hash n t ≠ generateName hash n2 t2 := generateName_ne hash hlen hm
    simp only [k8sApply, k8sDeleteValue, k8sGetRaw]
    rw [k8sFind_filter_other st hne]

/-- A created ConfigMap carries its own type label, so another type listing is
unchanged. -/
theorem k8sList_append_other {t1 t2 : String} (h : t1 ≠ t2) (st : K8sState) (x : CMEntry)
    (hx : x.valueType = t1) : k8sListValues (st ++ [x]) t2 = k8sListValues st t2 := by
  simp [k8sListValues, List.filter_append, hx, h]

/-- In a well-formed store, the ConfigMap rewritten by `writeValue` under type
`t1` carried the `t1` label before and after, so a `t2` listing is
unchanged. -/
theorem k8sList_map_other (hash : String → String) (hlen : ∀ s, (hash s).length = 32)
    {n1 t1 t2 : String} (j : String) (h : t1 ≠ t2) :
    ∀ st : K8sState, K8sWF hash st →
    k8sListValues (st.map (fun e =>
      if e.cmName = generateName hash n1 t1 then
        { cmName := generateName hash n1 t1, rdnsName := n1, valueType := t1, data := j }
      else e)) t2 = k8sListValues st t2 := by
  intro st
  induction st with
  | nil => intro _; rfl
  | cons e tl ih =>
    intro hWF
    have hWFtl : K8sWF hash tl := fun x hx => hWF x (List.mem_cons_of_mem e hx)
    by_cases he : e.cmName = generateName hash n1 t1
    · have hvt : e.valueType = t1 := by
        have hg : generateName hash e.rdnsName e.valueType = generateName hash n1 t1 :=
          (hWF e (List.mem_cons_self e tl)).symm.trans he
        by_contra hne
        exact generateName_ne hash hlen hne hg
      have h2 : ¬ e.valueType = t2 := by rw [hvt]; exact h
      simpa [k8sListValues, List.filter_cons, he, h2, h] using ih hWFtl
    · by_cases h2 : e.valueType = t2
      · simpa [k8sListValues, List.filter_cons, he, h2] using
          congrArg (List.cons e.rdnsName) (ih hWFtl)
      · simpa [k8sListValues, List.filter_cons, he, h2] using ih hWFtl

/-- In a well-formed store, the ConfigMap deleted under type `t1` carried the
`t1` label, so a `t2` listing is unchanged. -/
theorem k8sList_filter_other (hash : String → String) (hlen : ∀ s, (hash s).length = 32)
    {n1 t1 t2 : String} (h : t1 ≠ t2) :
    ∀ st : K8sState, K8sWF hash st →
    k8sListValues (st.filter (fun e => !decide (e.cmName = generateName hash n1 t1))) t2 =
      k8sListValues st t2 := by
  intro st
  induction st with
  | nil => intro _; rfl
  | cons e tl ih =>
    intro hWF
    have hWFtl : K8sWF hash tl := fun x hx => hWF x (List.mem_cons_of_mem e hx)
    by_cases he : e.cmName = generateName hash n1 t1
    · have hvt : e.valueType = t1 := by
        have hg : generateName hash e.rdnsName e.valueType = generateName hash n1 t1 :=
          (hWF e (List.mem_cons_self e tl)).symm.trans he
        by_contra hne
        exact generateName_ne hash hlen hne hg
      have h2 : ¬ e.valueType = t2 := by rw [hvt]; exact h
      simpa [k8sListValues, List.filter_cons, he, h2] using ih hWFtl
    · by_cases h2 : e.valueType = t2
      · simpa [k8sListValues, List.filter_cons, he, h2] using
          congrArg (List.cons e.rdnsName) (ih hWFtl)
      · simpa [k8sListValues, List.filter_cons, he, h2] using ih hWFtl

/-- No k8s mutation under one value type changes `ListValues` of another. -/
theorem k8sListValues_apply (hash : String → String) (hlen : ∀ s, (hash s).length = 32)
    (m : Mutation) (t2 : String) (hm : m.valueType ≠ t2) (st : K8sState) (hWF : K8sWF hash st) :
    k8sListValues (k8sApply hash m st) t2 = k8sListValues st t2 := by
  cases m with
  | set n t j =>
    simp only [Mutation.valueType] at hm
    simp only [k8sApply, k8sSetValue, k8sWriteValue]
    cases hf : k8sFind st (generateName hash n t) with
    | none => exact k8sList_append_other hm st _ rfl
    | some e => exact k8sList_map_other hash hlen j hm st hWF
  | update n t j =>
    simp only [Mutation.valueType] at hm
    simp only [k8sApply, k8sUpdateValue, k8sWriteValue]
    cases hf : k8sFind st (generateName hash n t) with
    | none => exact k8sList_append_other hm st _ rfl
    | some e => exact k8sList_map_other hash hlen j hm st hWF
  | del n t =>
    simp only [Mutation.valueType] at hm
    simp only [k8sApply, k8sDeleteValue]
    exact k8sList_filter_other hash hlen hm st hWF

/-- The expiry scan only reads the store through `GetValue` on the scanned
names. -/
theorem k8sGetExpiredGo_congr (hash : String → String) (stA stB : K8sState) (t2 : String)
    (cutoff : Int) (h : ∀ n, k8sGetRaw hash stA t2 n = k8sGetRaw hash stB t2 n) :
    ∀ names, k8sGetExpiredGo hash stA t2 cutoff names = k8sGetExpiredGo hash stB t2 cutoff names := by
  intro names
  induction names with
  | nil => rfl
  | cons n rest ih =>
    simp only [k8sGetExpiredGo, h n, ih]

/-- Every mutation preserves well-formedness, so `K8sWF` holds of all states
reachable from the empty store. -/
theorem k8sWF_apply (hash : String → String) (m : Mutation) (st : K8sState)
    (hWF : K8sWF hash st) : K8sWF hash (k8sApply hash m st) := by
  have hwrite : ∀ (n t j : String), K8sWF hash
      (match k8sWriteValue hash st n t j false with
       | .ok st2 => st2
       | .error _ => st) := by
    intro n t j
    simp only [k8sWriteValue]
    cases hf : k8sFind st (generateName hash n t) with
    | none =>
      intro e he
      rcases List.mem_append.mp he with h1 | h1
      · exact hWF e h1
      · rcases List.mem_singleton.mp h1 with rfl
        rfl
    | some x =>
      intro e he
      rcases List.mem_map.mp he with ⟨y, hy, rfl⟩
      by_cases hc : y.cmName = generateName hash n t
      · simp only [hc, if_true]
      · simp only [hc, if_false]
        exact hWF y hy
  cases m with
  | set n t j => exact hwrite n t j
  | update n t j => exact hwrite n t j
  | del n t =>
    intro e he
    exact hWF e (List.mem_of_mem_filter he)


/-- C9: value-type tags partition the namespace on both reference backends.
For any mutation (Set/Update/Delete) under a tag different from `t2`, every
observation under `t2` — `Get`, `List`, and `GetExpired` — is unchanged: the
filesystem backend keeps one directory per type, and the k8s backend encodes
the tag into the generated object name (32-character md5 hex makes the encoding
injective in the tag) and into the `rdns-value-type` label, for any well-formed
store. -/
theorem c9_type_partition (m : Mutation) (t2 : String) (hm : m.valueType ≠ t2) :
    (∀ (st : FsState) (n : String) (cutoff : Int),
      fsLookup (fsApply m st) t2 n = fsLookup st t2 n ∧
      fsListValues (fsApply m st) t2 = fsListValues st t2 ∧
      fsGetExpiredValues (fsApply m st) t2 cutoff = fsGetExpiredValues st t2 cutoff) ∧
    (∀ (hash : String → String), (∀ s, (hash s).length = 32) →
      ∀ st : K8sState, K8sWF hash st → ∀ (n : String) (cutoff : Int),
        k8sGetRaw hash (k8sApply hash m st) t2 n = k8sGetRaw hash st t2 n ∧
        k8sListValues (k8sApply hash m st) t2 = k8sListValues st t2 ∧
        k8sGetExpiredValues hash (k8sApply hash m st) t2 cutoff =
          k8sGetExpiredValues hash st t2 cutoff) := by
  constructor
  · intro st n cutoff
    have hb := fsBucket_fsApply m t2 hm st
    refine ⟨?_, ?_, ?_⟩
    · rw [← fsLookup_bucket (fsApply m st) t2 n, ← fsLookup_bucket st t2 n, hb]
    · simp only [fsListValues, hb]
    · simp only [fsGetExpiredValues, hb]
  · intro hash hlen st hWF n cutoff
    refine ⟨k8sGetRaw_apply hash hlen m t2 hm st n,
      k8sListValues_apply hash hlen m t2 hm st hWF, ?_⟩
    unfold k8sGetExpiredValues
    rw [k8sListValues_apply hash hlen m t2 hm st hWF]
    exact k8sGetExpiredGo_congr hash _ st t2 cutoff
      (fun n2 => k8sGetRaw_apply hash hlen m t2 hm st n2) _

/-- Witness for C9: a `token` create leaves the `a-record` views of both
backends unchanged. -/
theorem c9_type_partition_witness :
    fsLookup (fsApply (.set "n" "token" "d") [(("a-record", "r"), "v")]) "a-record" "r" =
      fsLookup [(("a-record", "r"), "v")] "a-record" "r" ∧
    k8sListValues (k8sApply c6Hash (.set "n" "token" "d") [c6Entry]) "a-record" =
      k8sListValues [c6Entry] "a-record" :=
  ⟨((c9_type_partition (.set "n" "token" "d") "a-record" (by decide)).1 _ "r" 0).1,
   ((c9_type_partition (.set "n" "token" "d") "a-record" (by decide)).2 c6Hash (fun _ => rfl)
      [c6Entry] (by intro e he; rcases List.mem_singleton.mp he with rfl; rfl) "x" 0).2.1⟩


end Rdns
